import Mathlib

/-!
Shallow embedding of the Turfion reservation-and-settlement subsystem.

Source files embedded here:
- `src/unnamed/part_006` (booking calendar: `generateTimeSlots`, `checkAvailability`,
  `handleTimeSlotToggle`, `handleConfirmBooking`);
- `src/unnamed/part_007` (second booking calendar variant: `generateTimeSlots`,
  `handleSlotToggle`, `handleBooking`);
- `src/functions/src/payment.ts` (both the TypeScript source `createPaymentOrder`,
  `verifyPayment`, `paymentWebhook`, and the compiled JavaScript variant shipped in the
  same file as `exports.paymentWebhook`);
- `src/src/components/Checkout.tsx` (`handlePayment`: the card redirect handler and the
  two UPI polling loops).

Machine strings are modelled as Lean `String`; all character-level manipulation that the
TypeScript performs through `split`, `padStart` and template literals is embedded as
structurally recursive functions over `List Char`, so every definition evaluates inside
the kernel.  JavaScript numbers are modelled as `ℚ` (the amounts in play are exact
decimals), array sorting (`Array.prototype.sort`, which is stable) as a stable insertion
sort, and the external collaborators (Razorpay's HMAC-SHA256, the JSON round trip
`JSON.stringify ∘ JSON.parse` performed by the webhook framework, and the processor's
payment-status lookup) as explicit function parameters.
-/

namespace Turfion

/-- Splits a character list on a separator character; mirrors JavaScript
`String.prototype.split` with a single-character separator. -/
def splitOnChar (c : Char) : List Char → List (List Char)
  | [] => [[]]
  | x :: xs =>
    let rest := splitOnChar c xs
    if x = c then [] :: rest
    else
      match rest with
      | [] => [[x]]
      | r :: rs => (x :: r) :: rs

/-- Numeric value of a decimal digit character, 0 for anything else. -/
def digitVal (c : Char) : Nat :=
  if '0' ≤ c ∧ c ≤ '9' then c.toNat - '0'.toNat else 0

/-- JavaScript `Number(...)` on the all-digit strings that occur in the sources
(`"09"`, `"15"`, ...): the usual base-10 value. -/
def numOfChars (cs : List Char) : Nat :=
  cs.foldl (fun acc c => acc * 10 + digitVal c) 0

/-- Decimal digit character for `n < 10`. -/
def digitChar (n : Nat) : Char :=
  Char.ofNat (48 + n % 10)

/-- Decimal rendering of the small naturals (< 100) that the sources interpolate
into time labels. -/
def natChars (n : Nat) : List Char :=
  if n < 10 then [digitChar n] else [digitChar (n / 10), digitChar (n % 10)]

/-- JavaScript `String(n).padStart(2, "0")` for `n < 100`. -/
def pad2 (n : Nat) : List Char :=
  if n < 10 then '0' :: [digitChar n] else natChars n

/-- Uppercases a character list; mirrors `String.prototype.toUpperCase` on the
ASCII strings (`"am"`, `"PM"`) in play. -/
def upperChars (cs : List Char) : List Char :=
  cs.map Char.toUpper

/-- Stable insertion into a sorted list: the new element goes after every element
it does not strictly precede, matching the stability of `Array.prototype.sort`. -/
def insertLt (lt : α → α → Bool) (x : α) : List α → List α
  | [] => [x]
  | y :: ys => if lt x y then x :: y :: ys else y :: insertLt lt x ys

/-- Stable sort by a strict comparison; models JavaScript `Array.prototype.sort`
with the comparators used in the sources. -/
def sortBy (lt : α → α → Bool) : List α → List α
  | [] => []
  | x :: xs => insertLt lt x (sortBy lt xs)

/-- Joins string pieces with a separator; mirrors `Array.prototype.join`. -/
def joinSep (sep : String) : List String → String
  | [] => ""
  | [x] => x
  | x :: xs => x ++ sep ++ joinSep sep xs

/-- Firestore `bookings` document, as both booking pages write it
(`part_006` line 263, `part_007` line 199): date is the timezone-naive
`YYYY-MM-DD` string, the slot set is stored both as an array and as a joined
string, `paid` starts `false`. -/
structure Booking where
  id : String
  userId : String
  cardId : String
  date : String
  timeSlot : String
  timeSlotsArray : List String
  totalAmount : ℚ
  paid : Bool
  paymentId : Option String
  paymentMethod : Option String
  paymentCapturedAt : Option Nat
deriving DecidableEq

/-- The bookings collection. -/
abbrev DB := List Booking

/-- Firestore `doc(id).get()` over the collection: first document with the key. -/
def findBooking (db : DB) (id : String) : Option Booking :=
  db.find? (fun b => b.id == id)

/-- Venue card fields consumed by the booking pages. -/
structure Card where
  id : String
  cardKey : String
  openingTime : String
  closingTime : String
  pricePerHour : ℚ
deriving DecidableEq

/-! ### part_006 — booking calendar (AM/PM labels) -/

/-- Embeds `parseTime` from `generateTimeSlots` (part_006 lines 48–58): splits
`"H:MM AM/PM"`, converts to 24h minutes, treating a missing period or minutes
as the code's `undefined` fallbacks do. -/
def parseTime (timeStr : String) : Nat :=
  let parts := splitOnChar ' ' timeStr.data
  let time := parts.headD []
  let period := parts[1]?
  let hm := splitOnChar ':' time
  let hours := numOfChars (hm.headD [])
  let minutes := (hm[1]?).map numOfChars |>.getD 0
  let hour24 :=
    if (period.map upperChars) = some "PM".data ∧ hours ≠ 12 then hours + 12
    else if (period.map upperChars) = some "AM".data ∧ hours = 12 then 0
    else hours
  hour24 * 60 + minutes

/-- Embeds `formatTime` (part_006 lines 60–66): renders minutes-past-midnight as
`"H:MM AM/PM"`. -/
def formatTime (minutes : Nat) : String :=
  let hours := minutes / 60
  let mins := minutes % 60
  let period := if hours ≥ 12 then "PM" else "AM"
  let displayHours := if hours = 0 then 12 else if hours > 12 then hours - 12 else hours
  String.mk (natChars displayHours ++ ':' :: pad2 mins ++ ' ' :: period.data)

/-- Embeds `generateTimeSlots` (part_006 lines 46–80): hourly labels from opening
to closing, adding 24h to the end when closing ≤ opening and wrapping each label
with `% (24*60)`. -/
def generateTimeSlots (openingTime closingTime : String) : List String :=
  let startMinutes := parseTime openingTime
  let endMinutes0 := parseTime closingTime
  let endMinutes := if endMinutes0 ≤ startMinutes then endMinutes0 + 24 * 60 else endMinutes0
  (List.range ((endMinutes - startMinutes + 59) / 60)).map
    (fun k => formatTime ((startMinutes + 60 * k) % (24 * 60)))

/-- Embeds `checkAvailability` (part_006 lines 91–112): all `(slot, paid)` pairs
of bookings for the card and date.  The duck-typed slot extraction
(`timeSlotsArray` if an array, else `timeSlot.split(",")`) always sees the array
here because both writers persist `timeSlotsArray`. -/
def checkAvailability (db : DB) (cardId dateString : String) : List (String × Bool) :=
  (db.filter (fun b => b.cardId == cardId && b.date == dateString)).flatMap
    (fun b => b.timeSlotsArray.map (fun s => (s, b.paid)))

/-- One entry of the `timeSlots` state (part_006 lines 25–29). -/
structure TimeSlotEntry where
  time : String
  available : Bool
  paid : Bool
deriving DecidableEq

/-- Embeds the body of `updateTimeSlots` (part_006 lines 138–152): every generated
label, marked unavailable exactly when some booked pair has the same label and is
paid. -/
def slotsWithAvailability (db : DB) (card : Card) (dateString : String) : List TimeSlotEntry :=
  let allSlots := generateTimeSlots card.openingTime card.closingTime
  let bookedSlots := checkAvailability db card.id dateString
  allSlots.map (fun slot =>
    { time := slot
      available := !(bookedSlots.any (fun bs => bs.1 == slot && bs.2))
      paid := bookedSlots.any (fun bs => bs.1 == slot && bs.2) })

/-- The labels the page displays as available: the `available` entries of
`slotsWithAvailability`. -/
def availableTimes (db : DB) (card : Card) (dateString : String) : List String :=
  ((slotsWithAvailability db card dateString).filter (fun e => e.available)).map
    (fun e => e.time)

/-- Embeds `parseTimeToMinutes` (part_006 lines 154–160); note it reduces hours
mod 12 before adding 12 for PM, unlike `parseTime` above. -/
def parseTimeToMinutes (time : String) : Nat :=
  let parts := splitOnChar ' ' time.data
  let t := parts.headD []
  let period := parts[1]?
  let hm := splitOnChar ':' t
  let hours := numOfChars (hm.headD [])
  let minutes := (hm[1]?).map numOfChars |>.getD 0
  let h0 := hours % 12
  let h := if period = some "PM".data then h0 + 12 else h0
  h * 60 + minutes

/-- Embeds `areSlotsConsecutive` (part_006 lines 162–171): sort the minute values
ascending and require every adjacent difference to be exactly 60. -/
def areSlotsConsecutive (slots : List String) : Bool :=
  if slots.length ≤ 1 then true
  else
    let minutes := sortBy (fun a b => a < b) (slots.map parseTimeToMinutes)
    let rec chk : List Nat → Bool
      | a :: b :: t => (b - a == 60) && chk (b :: t)
      | _ => true
    chk minutes

/-- Embeds `handleTimeSlotToggle` (part_006 lines 173–207), returning the new
selection.  Removal filters the label out and resets to `[]` when more than one
label remains and they are no longer consecutive; insertion requires the slot to
be available and unpaid and, for a non-empty selection, adjacent (±60 minutes)
to the current minimum or maximum. -/
def handleTimeSlotToggle (timeSlots : List TimeSlotEntry) (prev : List String)
    (timeSlot : String) : List String :=
  if prev.contains timeSlot then
    if (prev.filter (fun slot => slot ≠ timeSlot)).length > 1 ∧
        ¬areSlotsConsecutive (prev.filter (fun slot => slot ≠ timeSlot)) then []
    else prev.filter (fun slot => slot ≠ timeSlot)
  else
    match timeSlots.find? (fun slot => slot.time == timeSlot) with
    | none => prev
    | some slotData =>
      if !slotData.available || slotData.paid then prev
      else if prev = [] then [timeSlot]
      else
        if (parseTimeToMinutes timeSlot : ℤ) =
            (((prev.map parseTimeToMinutes).foldl Nat.min
              ((prev.map parseTimeToMinutes).headD 0) : ℕ) : ℤ) - 60 ∨
          (parseTimeToMinutes timeSlot : ℤ) =
            (((prev.map parseTimeToMinutes).foldl Nat.max
              ((prev.map parseTimeToMinutes).headD 0) : ℕ) : ℤ) + 60 then
          sortBy (fun a b => parseTimeToMinutes a < parseTimeToMinutes b) (prev ++ [timeSlot])
        else prev

/-- Outcome of a `handleConfirmBooking` run. -/
inductive ReserveResult where
  | conflict
  | booked (bookingId : String)
deriving DecidableEq

/-- Embeds the core of `handleConfirmBooking` (part_006 lines 249–298) run against
a single database snapshot (no interleaving): re-read availability, reject when
any selected slot collides with a *paid* booking, otherwise persist the
provisional booking priced at `|slots| × pricePerHour`. -/
def handleConfirmBooking (db : DB) (uid : String) (card : Card) (dateString : String)
    (selectedTimeSlots : List String) (newId : String) : DB × ReserveResult :=
  let totalAmount := (selectedTimeSlots.length : ℚ) * card.pricePerHour
  let bookedSlots := checkAvailability db card.id dateString
  let conflict := selectedTimeSlots.any (fun slot =>
    bookedSlots.any (fun bs => bs.1 == slot && bs.2))
  if conflict then (db, .conflict)
  else
    let sortedSlots := sortBy (fun a b => parseTimeToMinutes a < parseTimeToMinutes b)
      selectedTimeSlots
    let booking : Booking :=
      { id := newId
        userId := uid
        cardId := card.id
        date := dateString
        timeSlot := joinSep "," sortedSlots
        timeSlotsArray := sortedSlots
        totalAmount := totalAmount
        paid := false
        paymentId := none
        paymentMethod := none
        paymentCapturedAt := none }
    (db ++ [booking], .booked newId)

/-! ### part_007 — booking calendar variant (24h `"HH:00"` labels) -/

/-- Embeds `generateTimeSlots` from part_007 (lines 61–73): 24h labels
`"HH:00"` from opening hour to closing hour, adding 24 when closing ≤ opening
and wrapping with `% 24`. -/
def generateTimeSlots7 (opening closing : String) : List String :=
  let openHour := numOfChars ((splitOnChar ':' opening.data).headD [])
  let closeHour0 := numOfChars ((splitOnChar ':' closing.data).headD [])
  let closeHour := if closeHour0 ≤ openHour then closeHour0 + 24 else closeHour0
  (List.range (closeHour - openHour)).map
    (fun k => String.mk (pad2 ((openHour + k) % 24) ++ ":00".data))

/-- JavaScript `parseInt(s.split(":")[0])` on a `"HH:00"` label. -/
def slotHour (s : String) : Nat :=
  numOfChars ((splitOnChar ':' s.data).headD [])

/-- Embeds `handleSlotToggle` from part_007 (lines 154–177), returning the new
selection.  An unavailable label is ignored; a selected label is removed by a
plain filter (no contiguity repair); a new label needs adjacency (±1 hour) to
the selection's min/max hour; insertion sorts with the default string sort. -/
def handleSlotToggle (availableSlots : List String) (prev : List String)
    (slot : String) : List String :=
  if !availableSlots.contains slot then prev
  else if prev.contains slot then prev.filter (fun s => s ≠ slot)
  else if prev = [] then [slot]
  else
    if (slotHour slot : ℤ) =
        (((prev.map slotHour).foldl Nat.min ((prev.map slotHour).headD 0) : ℕ) : ℤ) - 1 ∨
      (slotHour slot : ℤ) =
        (((prev.map slotHour).foldl Nat.max ((prev.map slotHour).headD 0) : ℕ) : ℤ) + 1 then
      sortBy (fun a b : String => a < b) (prev ++ [slot])
    else prev

/-- Embeds the core of `handleBooking` from part_007 (lines 188–208) against one
snapshot of the listener's `availableSlots`: reject when any selected slot fell
out of the available set, otherwise persist the provisional booking. -/
def handleBooking (db : DB) (uid : String) (card : Card) (dateStr : String)
    (availableSlots selectedTimeSlots : List String) (newId : String) : DB × ReserveResult :=
  let totalAmount := (selectedTimeSlots.length : ℚ) * card.pricePerHour
  if selectedTimeSlots.any (fun s => !availableSlots.contains s) then (db, .conflict)
  else
    let booking : Booking :=
      { id := newId
        userId := uid
        cardId := card.id
        date := dateStr
        timeSlot := joinSep " - " selectedTimeSlots
        timeSlotsArray := selectedTimeSlots
        totalAmount := totalAmount
        paid := false
        paymentId := none
        paymentMethod := none
        paymentCapturedAt := none }
    (db ++ [booking], .booked newId)

/-! ### payment.ts — callable functions

External collaborators appear as parameters: `hmac secret message` models
`createHmac("sha256", secret).update(message).digest("hex")`, and
`fetchStatus paymentId` models `razorpay.payments.fetch` returning the payment's
status (`none` models a fetch that throws). -/

/-- JavaScript `Math.round` on the exact decimals in play: `⌊x + 1/2⌋`. -/
def jsRound (q : ℚ) : ℤ :=
  ⌊q + 1 / 2⌋

/-- The order-create request `createPaymentOrder` sends to the processor
(payment.ts lines 39–46): paise amount, INR, the booking id as receipt and as
`notes.bookingId` metadata. -/
structure OrderRequest where
  amount : ℤ
  currency : String
  receipt : String
  notesBookingId : Option String
deriving DecidableEq

/-- Result of a callable invocation: an `HttpsError` code or a payload. -/
inductive CallResult (α : Type) where
  | httpsError (code : String)
  | ok (value : α)
deriving DecidableEq

/-- Embeds `createPaymentOrder` (payment.ts lines 18–62).  `amount = none`
models a missing or non-number field; `bookingId = none` a missing field; the
checks are the code's `!amount || !bookingId || typeof amount !== "number" ||
amount <= 0` (so `0`, which is falsy, is also rejected).  The bookings
collection `db` is passed to show the function never consults it. -/
def createPaymentOrder (authUid : Option String) (amount : Option ℚ)
    (bookingId : Option String) (_db : DB) : CallResult OrderRequest :=
  if authUid = none then .httpsError "unauthenticated"
  else
    match amount, bookingId with
    | some a, some bid =>
      if a = 0 ∨ bid = "" ∨ a ≤ 0 then .httpsError "invalid-argument"
      else .ok { amount := jsRound (a * 100), currency := "INR", receipt := bid,
                 notesBookingId := some bid }
    | _, _ => .httpsError "invalid-argument"

/-- Successful `verifyPayment` responses: `{success, paymentId?, error?}`. -/
structure VerifyResponse where
  success : Bool
  paymentId : Option String
  error : Option String
deriving DecidableEq

/-- Embeds `verifyPayment` (payment.ts lines 65–104): require auth and all three
destructured payload fields, recompute the HMAC over `orderId|paymentId` with
the key secret, compare exactly; on mismatch answer `success := false`; on match
answer success exactly when the fetched payment status is `"captured"`. -/
def verifyPayment (hmac : String → String → String) (keySecret : String)
    (authUid : Option String)
    (razorpayPaymentId razorpayOrderId razorpaySignature : Option String)
    (fetchStatus : String → Option String) : CallResult VerifyResponse :=
  if authUid = none then .httpsError "unauthenticated"
  else
    match razorpayPaymentId, razorpayOrderId, razorpaySignature with
    | some pid, some oid, some sig =>
      if pid = "" ∨ oid = "" ∨ sig = "" then .httpsError "invalid-argument"
      else
        let expectedSignature := hmac keySecret (oid ++ "|" ++ pid)
        if expectedSignature ≠ sig then
          .ok { success := false, paymentId := none, error := some "Invalid payment signature" }
        else
          match fetchStatus pid with
          | some status =>
            if status = "captured" then
              .ok { success := true, paymentId := some pid, error := none }
            else
              .ok { success := false, paymentId := none, error := some "Payment not captured" }
          | none =>
            .ok { success := false, paymentId := none, error := some "Failed to verify payment status" }
    | _, _, _ => .httpsError "invalid-argument"

/-- Firestore `updateDoc(doc(db,"bookings",id), {paid: true, paymentId, paymentMethod})`
as the Checkout handlers perform it (Checkout.tsx lines 167–171, 210–214, 249–253). -/
def markPaidClient (db : DB) (bookingId paymentId method : String) : DB :=
  db.map (fun b =>
    if b.id == bookingId then
      { b with paid := true, paymentId := some paymentId, paymentMethod := some method }
    else b)

/-- Embeds the card-flow Razorpay `handler` callback of `handlePayment`
(Checkout.tsx lines 153–182): call `verifyPayment`; only on `success` mark the
booking paid, otherwise (including a thrown call) leave the database untouched
and route to the failure view. -/
def handlePaymentCard (hmac : String → String → String) (keySecret : String)
    (authUid : Option String) (db : DB) (bookingId : String)
    (respPaymentId respOrderId respSignature : String)
    (fetchStatus : String → Option String) : DB × Bool :=
  match verifyPayment hmac keySecret authUid
      (some respPaymentId) (some respOrderId) (some respSignature) fetchStatus with
  | .httpsError _ => (db, false)
  | .ok r =>
    if r.success then (markPaidClient db bookingId respPaymentId "card", true)
    else (db, false)

/-! ### payment.ts — webhook handlers

A webhook request carries the raw bytes the processor signed and the parsed body
the framework hands to the handler.  The handler recomputes the signature over
`JSON.stringify(req.body)`, i.e. over `stringifyParse rawBody` where
`stringifyParse` models `JSON.stringify ∘ JSON.parse`; it is a parameter because
it is platform code.  `jsonMinify` below is its concrete behaviour on bodies
whose strings contain no escapes and whose numbers and key order are already in
canonical form: inter-token whitespace is dropped. -/

/-- Whitespace removal outside double-quoted strings, by one pass with an
in-string flag. -/
def minifyAux : Bool → List Char → List Char
  | _, [] => []
  | inStr, c :: cs =>
    if c = '"' then c :: minifyAux (!inStr) cs
    else if !inStr ∧ (c = ' ' ∨ c = '\n' ∨ c = '\t') then minifyAux inStr cs
    else c :: minifyAux inStr cs

/-- Concrete model of `JSON.stringify(JSON.parse(s))` for the JSON bodies used
in the development: strips whitespace between tokens and leaves string contents
alone. -/
def jsonMinify (s : String) : String :=
  String.mk (minifyAux false s.data)

/-- The `payload.payment.entity` fields the webhook reads. -/
structure PaymentEntity where
  id : String
  orderId : String
  method : String
  notesBookingId : Option String
deriving DecidableEq

/-- A webhook delivery: the signature header (`none` when absent), the raw body
bytes the processor signed, and the parsed `event` and payment entity. -/
structure WebhookRequest where
  signature : Option String
  rawBody : String
  event : String
  payment : PaymentEntity
deriving DecidableEq

/-- The `payment.notes?.bookingId || payment.order_id` fallback (payment.ts
lines 126 and 299): the notes value when present and truthy, else the order id. -/
def effectiveBookingId (p : PaymentEntity) : String :=
  match p.notesBookingId with
  | some s => if s = "" then p.orderId else s
  | none => p.orderId

/-- HTTP response: status code and body text. -/
structure HttpResponse where
  status : Nat
  body : String
deriving DecidableEq

/-- The webhook's settlement write (payment.ts lines 147–152): set `paid`, the
payment id and method, and the server timestamp on the document with the given
key. -/
def settleWrite (db : DB) (bookingId paymentId method : String) (now : Nat) : DB :=
  db.map (fun b =>
    if b.id == bookingId then
      { b with paid := true, paymentId := some paymentId,
               paymentMethod := some method, paymentCapturedAt := some now }
    else b)

/-- Embeds the TypeScript `paymentWebhook` (payment.ts lines 107–169): verify
the header against the HMAC of `JSON.stringify(req.body)` using the webhook
secret (400 on mismatch), ignore non-capture events, resolve the booking key via
the notes/order-id fallback (400 when empty), 404 when no document exists under
that key, 200 `"Already processed"` without writing when the booking is already
paid, otherwise mark it paid with the payment's id and method and the server
timestamp `now`. -/
def paymentWebhook (hmac : String → String → String) (webhookSecret : String)
    (stringifyParse : String → String) (now : Nat) (req : WebhookRequest)
    (db : DB) : HttpResponse × DB :=
  if req.signature ≠ some (hmac webhookSecret (stringifyParse req.rawBody)) then
    (⟨400, "Invalid signature"⟩, db)
  else if req.event = "payment.captured" then
    if effectiveBookingId req.payment = "" then (⟨400, "Missing booking reference"⟩, db)
    else
      match findBooking db (effectiveBookingId req.payment) with
      | none => (⟨404, "Booking not found"⟩, db)
      | some bookingData =>
        if bookingData.paid then (⟨200, "Already processed"⟩, db)
        else
          (⟨200, "OK"⟩,
            settleWrite db (effectiveBookingId req.payment) req.payment.id
              req.payment.method now)
  else (⟨200, "Event ignored"⟩, db)

/-- Embeds the compiled-JavaScript `exports.paymentWebhook` shipped in the same
file (payment.ts lines 289–320): same signature gate, but no existence check and
no already-paid guard — `update` on a missing document throws (500), and an
existing booking is unconditionally rewritten with `paid`, `paymentId`,
`paymentMethod`. -/
def paymentWebhookJS (hmac : String → String → String) (webhookSecret : String)
    (stringifyParse : String → String) (req : WebhookRequest)
    (db : DB) : HttpResponse × DB :=
  if req.signature = some (hmac webhookSecret (stringifyParse req.rawBody)) then
    if req.event = "payment.captured" then
      match findBooking db (effectiveBookingId req.payment) with
      | none => (⟨500, "Error processing webhook"⟩, db)
      | some _ =>
        (⟨200, "Webhook processed"⟩,
          markPaidClient db (effectiveBookingId req.payment) req.payment.id
            req.payment.method)
    else (⟨200, "Webhook event ignored"⟩, db)
  else (⟨400, "Invalid webhook signature"⟩, db)

/-! ### Checkout.tsx — UPI polling loops -/

/-- The `setInterval` period of both UPI polling loops (Checkout.tsx lines 230
and 269), in milliseconds. -/
def pollIntervalMs : Nat := 10000

/-- The `maxAttempts` bound of both UPI polling loops (Checkout.tsx lines 202
and 241). -/
def maxAttempts : Nat := 30

/-- Outcome of a polling loop. -/
inductive PollOutcome where
  | settled (attempt : Nat)
  | timeout
deriving DecidableEq

/-- Embeds the interval callback of the UPI polling loops (Checkout.tsx lines
205–230): each tick increments `attempts` and asks `verifyPayment`; the first
successful response stops the loop settled at that attempt; a failed response at
`attempts ≥ maxAttempts` stops it timed out; otherwise the next tick runs. -/
def pollFrom (verify : Nat → Bool) (attempts : Nat) : PollOutcome :=
  let a := attempts + 1
  if verify a then .settled a
  else if maxAttempts ≤ a then .timeout
  else pollFrom verify a
termination_by maxAttempts - attempts
decreasing_by simp only [maxAttempts] at *; omega

/-- Embeds one whole UPI polling flow over the booking database: run the loop
from `attempts = 0`; on the first success write
`{paid: true, paymentId: response.paymentId || orderId, paymentMethod: method}`;
on timeout leave the database untouched. -/
def pollRun (verify : Nat → Bool) (paymentIdAt : Nat → Option String)
    (db : DB) (bookingId orderId method : String) : PollOutcome × DB :=
  match pollFrom verify 0 with
  | .settled k =>
    let pid := match paymentIdAt k with
      | some s => if s = "" then orderId else s
      | none => orderId
    (.settled k, markPaidClient db bookingId pid method)
  | .timeout => (.timeout, db)

/-! ### Interleaving model of reserve and settlement

`handleConfirmBooking` performs its conflict re-read (`checkAvailability`,
part_006 line 252) and its `addDoc` write (line 275) in two separate awaited
Firestore operations, and the webhook settles bookings from an independent
request context.  The small-step system below has exactly those three atomic
steps: a reserve session's conflict check, its write, and one webhook
settlement.  Each step's guard is the corresponding code's own test. -/

/-- An in-flight `handleConfirmBooking` call: the provisional booking it will
write (with its to-be-assigned document id) and whether its conflict re-read
has already passed. -/
structure ReserveSession where
  pending : Booking
  checked : Bool
deriving DecidableEq

/-- The shared state: the bookings collection plus the in-flight reserve
sessions. -/
structure Sys where
  db : DB
  sessions : List ReserveSession
deriving DecidableEq

/-- The conflict test of `handleConfirmBooking` (part_006 lines 252–255) for a
pending booking against the current collection: some selected slot matches a
booked pair that is paid. -/
def conflictWithPaid (db : DB) (b : Booking) : Bool :=
  b.timeSlotsArray.any (fun slot =>
    (checkAvailability db b.cardId b.date).any (fun bs => bs.1 == slot && bs.2))

/-- One atomic step of the interleaved system.  The settle step performs the
webhook's `settleWrite` under the webhook's own guard: the target booking exists
and is not yet paid. -/
inductive Step : Sys → Sys → Prop where
  | check (s : Sys) (i : Nat) (sess : ReserveSession)
      (hget : s.sessions[i]? = some sess)
      (hunchecked : sess.checked = false)
      (hok : conflictWithPaid s.db sess.pending = false) :
      Step s ⟨s.db, s.sessions.set i { sess with checked := true }⟩
  | write (s : Sys) (i : Nat) (sess : ReserveSession)
      (hget : s.sessions[i]? = some sess)
      (hchecked : sess.checked = true) :
      Step s ⟨s.db ++ [sess.pending], s.sessions.eraseIdx i⟩
  | settle (s : Sys) (bookingId paymentId method : String) (now : Nat) (b : Booking)
      (hfound : findBooking s.db bookingId = some b)
      (hunpaid : b.paid = false) :
      Step s ⟨settleWrite s.db bookingId paymentId method now, s.sessions⟩

/-- Reachability by any interleaving of the three step kinds. -/
def Reach : Sys → Sys → Prop :=
  Relation.ReflTransGen Step

/-- The no-double-sale invariant of the spec: no slot is contained in two
distinct paid bookings for the same venue card and date. -/
def NoDoubleSale (db : DB) : Prop :=
  ∀ b1 ∈ db, ∀ b2 ∈ db, b1.paid = true → b2.paid = true → b1.id ≠ b2.id →
    b1.cardId = b2.cardId → b1.date = b2.date →
    ∀ slot ∈ b1.timeSlotsArray, slot ∉ b2.timeSlotsArray

instance (db : DB) : Decidable (NoDoubleSale db) := by
  unfold NoDoubleSale
  infer_instance

/-! ### Concrete scenario data

A venue card `"c1"` on date `"2025-07-01"`; two customers both reserve the
2:00 PM slot.  `hmacDemo` is a concrete injective stand-in for HMAC-SHA256 used
to evaluate the handlers on explicit inputs. -/

/-- Concrete keyed MAC used for evaluating the embedded handlers: prefixes the
message with the secret.  For a fixed secret it is injective in the message, the
property the development needs from HMAC-SHA256. -/
def hmacDemo (secret message : String) : String :=
  secret ++ "#" ++ message

/-- First customer's provisional booking of the 2:00 PM slot. -/
def raceBookingA : Booking :=
  { id := "bkA", userId := "u1", cardId := "c1", date := "2025-07-01",
    timeSlot := "2:00 PM", timeSlotsArray := ["2:00 PM"], totalAmount := 500,
    paid := false, paymentId := none, paymentMethod := none, paymentCapturedAt := none }

/-- Second customer's provisional booking of the same slot. -/
def raceBookingB : Booking :=
  { id := "bkB", userId := "u2", cardId := "c1", date := "2025-07-01",
    timeSlot := "2:00 PM", timeSlotsArray := ["2:00 PM"], totalAmount := 500,
    paid := false, paymentId := none, paymentMethod := none, paymentCapturedAt := none }

/-- Initial state: empty collection, both `handleConfirmBooking` calls in
flight, neither conflict re-read done yet. -/
def raceInit : Sys :=
  ⟨[], [⟨raceBookingA, false⟩, ⟨raceBookingB, false⟩]⟩

/-- The first booking after its webhook settlement. -/
def raceSettledA : Booking :=
  { raceBookingA with
    paid := true
    paymentId := some "pay_A"
    paymentMethod := some "upi"
    paymentCapturedAt := some 1 }

/-- The second booking after its webhook settlement. -/
def raceSettledB : Booking :=
  { raceBookingB with
    paid := true
    paymentId := some "pay_B"
    paymentMethod := some "upi"
    paymentCapturedAt := some 2 }

/-- Final state of the double-sale interleaving: both bookings persisted and
both settled paid. -/
def raceFinal : Sys :=
  ⟨[raceSettledA, raceSettledB], []⟩

/-- Intermediate state of the reserve/settle race: booking `bkA` settled paid
while the second reserve session has passed its conflict re-read (taken when
`bkA` was still unpaid) but has not yet written. -/
def c3Mid : Sys :=
  ⟨[raceSettledA], [⟨raceBookingB, true⟩]⟩

/-- Webhook delivery settling the losing booking `bkB`: a well-signed
`payment.captured` event whose notes carry `bkB`. -/
def raceWebhookReqB : WebhookRequest :=
  { signature := some (hmacDemo "whsec"
      "\x7b\"event\":\"payment.captured\",\"payload\":\x7b\"payment\":\x7b\"entity\":\x7b\"id\":\"pay_B\",\"order_id\":\"ord_B\",\"method\":\"upi\",\"notes\":\x7b\"bookingId\":\"bkB\"\x7d\x7d\x7d\x7d\x7d"),
    rawBody := "\x7b\"event\":\"payment.captured\",\"payload\":\x7b\"payment\":\x7b\"entity\":\x7b\"id\":\"pay_B\",\"order_id\":\"ord_B\",\"method\":\"upi\",\"notes\":\x7b\"bookingId\":\"bkB\"\x7d\x7d\x7d\x7d\x7d",
    event := "payment.captured",
    payment := { id := "pay_B", orderId := "ord_B", method := "upi",
                 notesBookingId := some "bkB" } }

/-! ### Spec-side definitions, for refinement comparisons -/

/-- Stated from the spec: the union of the slot-sets of all *paid* bookings for
the card and date. -/
def paidSlotsUnion (db : DB) (cardId dateString : String) : List String :=
  (db.filter (fun b => b.paid && b.cardId == cardId && b.date == dateString)).flatMap
    (fun b => b.timeSlotsArray)

/-- Stated from the spec: the hourly labels in `[opening, closing)` minus the
union of the slot-sets of all paid bookings for the card and date. -/
def specAvailability (db : DB) (card : Card) (dateString : String) : List String :=
  (generateTimeSlots card.openingTime card.closingTime).filter
    (fun l => !((paidSlotsUnion db card.id dateString).contains l))

/-- Stated from the spec: some requested slot lies in a paid booking for the
card and date. -/
def hasPaidCollision (db : DB) (cardId dateString : String) (sel : List String) : Prop :=
  ∃ b ∈ db, b.paid = true ∧ b.cardId = cardId ∧ b.date = dateString ∧
    ∃ s ∈ sel, s ∈ b.timeSlotsArray

/-- Adjacency condition of part_006's selector: the candidate's minutes are
exactly 60 below the selection's minimum or 60 above its maximum. -/
def adjacentToSelection (prev : List String) (t : String) : Prop :=
  (parseTimeToMinutes t : ℤ) =
    (((prev.map parseTimeToMinutes).foldl Nat.min
      ((prev.map parseTimeToMinutes).headD 0) : ℕ) : ℤ) - 60 ∨
  (parseTimeToMinutes t : ℤ) =
    (((prev.map parseTimeToMinutes).foldl Nat.max
      ((prev.map parseTimeToMinutes).headD 0) : ℕ) : ℤ) + 60

/-- Adjacency condition of part_007's selector: the candidate's hour is exactly
one below the selection's minimum hour or one above its maximum hour. -/
def adjacentToSelection7 (prev : List String) (t : String) : Prop :=
  (slotHour t : ℤ) =
    (((prev.map slotHour).foldl Nat.min ((prev.map slotHour).headD 0) : ℕ) : ℤ) - 1 ∨
  (slotHour t : ℤ) =
    (((prev.map slotHour).foldl Nat.max ((prev.map slotHour).headD 0) : ℕ) : ℤ) + 1

instance (prev : List String) (t : String) : Decidable (adjacentToSelection prev t) := by
  unfold adjacentToSelection
  infer_instance

instance (prev : List String) (t : String) : Decidable (adjacentToSelection7 prev t) := by
  unfold adjacentToSelection7
  infer_instance

/-! ### Concrete webhook deliveries for evaluating the handlers -/

/-- A raw webhook body containing inter-token whitespace, as a processor is free
to send: `JSON.stringify(JSON.parse(·))` is not the identity on it. -/
def spacedRawBody : String :=
  "\x7b \"event\": \"payment.captured\", \"payload\": \x7b \"payment\": \x7b \"entity\": \x7b \"id\": \"pay_1\", \"order_id\": \"order_1\", \"method\": \"upi\", \"notes\": \x7b \"bookingId\": \"bkA\" \x7d \x7d \x7d \x7d \x7d"

/-- The delivery whose header signs the re-serialised parsed body (what the
handler actually checks) rather than the raw bytes. -/
def spacedReq : WebhookRequest :=
  { signature := some (hmacDemo "whsec" (jsonMinify spacedRawBody))
    rawBody := spacedRawBody
    event := "payment.captured"
    payment := { id := "pay_1", orderId := "order_1", method := "upi",
                 notesBookingId := some "bkA" } }

/-- A delivery for booking key fallback analysis: `notes.bookingId` names a
document that does not exist, while a document keyed by the payment's
`order_id` does. -/
def fallbackReq : WebhookRequest :=
  { signature := some (hmacDemo "whsec"
      "\x7b\"event\":\"payment.captured\",\"payload\":\x7b\"payment\":\x7b\"entity\":\x7b\"id\":\"pay_9\",\"order_id\":\"ord_9\",\"method\":\"upi\",\"notes\":\x7b\"bookingId\":\"missing_bk\"\x7d\x7d\x7d\x7d\x7d")
    rawBody := "\x7b\"event\":\"payment.captured\",\"payload\":\x7b\"payment\":\x7b\"entity\":\x7b\"id\":\"pay_9\",\"order_id\":\"ord_9\",\"method\":\"upi\",\"notes\":\x7b\"bookingId\":\"missing_bk\"\x7d\x7d\x7d\x7d\x7d"
    event := "payment.captured"
    payment := { id := "pay_9", orderId := "ord_9", method := "upi",
                 notesBookingId := some "missing_bk" } }

/-- A bookings collection whose only document is keyed by the processor's order
id `ord_9`. -/
def orderKeyedDb : DB :=
  [{ raceBookingA with id := "ord_9" }]

/-- A venue card open 9:00 AM–12:00 PM at 500 per hour. -/
def availCard : Card :=
  { id := "c1", cardKey := "K1", openingTime := "9:00 AM", closingTime := "12:00 PM",
    pricePerHour := 500 }

/-- A paid booking of the 10:00 AM slot on `availCard`'s date. -/
def availPaidBooking : Booking :=
  { raceBookingA with
    timeSlotsArray := ["10:00 AM"]
    timeSlot := "10:00 AM"
    paid := true }

/-- An unpaid booking of the 11:00 AM slot on the same date. -/
def availUnpaidBooking : Booking :=
  { raceBookingB with
    timeSlotsArray := ["11:00 AM"]
    timeSlot := "11:00 AM" }

/-! ## Theorems -/

/-- Boolean `contains` agrees with list membership. -/
theorem contains_eq_true_iff {α : Type} [BEq α] [LawfulBEq α] (l : List α) (a : α) :
    l.contains a = true ↔ a ∈ l :=
  List.elem_iff

/-- Stable insertion preserves the element set. -/
theorem mem_insertLt (lt : α → α → Bool) (x a : α) (l : List α) :
    a ∈ insertLt lt x l ↔ a = x ∨ a ∈ l := by
  induction l with
  | nil => simp [insertLt]
  | cons y ys ih =>
    simp only [insertLt]
    split
    · simp [List.mem_cons]
    · simp only [List.mem_cons, ih]
      tauto

/-- Sorting preserves the element set. -/
theorem mem_sortBy (lt : α → α → Bool) (a : α) (l : List α) :
    a ∈ sortBy lt l ↔ a ∈ l := by
  induction l with
  | nil => simp [sortBy]
  | cons x xs ih => simp [sortBy, mem_insertLt, ih]

/-- The code's booked-and-paid test for one slot matches the existence of a paid
booking for the card and date containing it. -/
theorem checkAvailability_paid_mem (db : DB) (cid d slot : String) :
    ((checkAvailability db cid d).any (fun bs => bs.1 == slot && bs.2) = true) ↔
      ∃ b ∈ db, b.paid = true ∧ b.cardId = cid ∧ b.date = d ∧ slot ∈ b.timeSlotsArray := by
  simp only [checkAvailability, List.any_eq_true, List.mem_flatMap, List.mem_filter,
    List.mem_map, Bool.and_eq_true, beq_iff_eq]
  constructor
  · rintro ⟨p, ⟨b, ⟨hb, hcd⟩, s, hs, rfl⟩, h1, h2⟩
    exact ⟨b, hb, h2, hcd.1, hcd.2, h1 ▸ hs⟩
  · rintro ⟨b, hb, hpaid, hcid, hdate, hslot⟩
    exact ⟨(slot, b.paid), ⟨b, ⟨hb, hcid, hdate⟩, slot, hslot, rfl⟩, rfl, hpaid⟩

/-- Membership in the spec-side union of paid slot-sets. -/
theorem mem_paidSlotsUnion (db : DB) (cid d slot : String) :
    slot ∈ paidSlotsUnion db cid d ↔
      ∃ b ∈ db, b.paid = true ∧ b.cardId = cid ∧ b.date = d ∧ slot ∈ b.timeSlotsArray := by
  simp only [paidSlotsUnion, List.mem_flatMap, List.mem_filter, Bool.and_eq_true, beq_iff_eq]
  tauto

/-- The displayed availability is exactly the generated labels minus the union
of paid bookings' slot-sets. -/
theorem availability_eq (db : DB) (card : Card) (d : String) :
    availableTimes db card d = specAvailability db card d := by
  unfold availableTimes slotsWithAvailability specAvailability
  rw [List.filter_map _ _, List.map_map]
  have h1 : ((fun e : TimeSlotEntry => e.time) ∘ fun slot =>
      ({ time := slot,
         available := !((checkAvailability db card.id d).any (fun bs => bs.1 == slot && bs.2)),
         paid := (checkAvailability db card.id d).any (fun bs => bs.1 == slot && bs.2) } :
        TimeSlotEntry)) = id := by
    funext slot
    rfl
  rw [h1, List.map_id]
  apply List.filter_congr
  intro slot _
  simp only [Function.comp]
  congr 1
  rw [Bool.eq_iff_iff, checkAvailability_paid_mem]
  constructor
  · intro h
    exact List.elem_iff.mpr ((mem_paidSlotsUnion db card.id d slot).mpr h)
  · intro h
    exact (mem_paidSlotsUnion db card.id d slot).mp (List.elem_iff.mp h)

/-- Appending an unpaid booking leaves the paid slot union unchanged. -/
theorem paidSlotsUnion_append_unpaid (db : DB) (cid d : String) (b : Booking)
    (hb : b.paid = false) : paidSlotsUnion (db ++ [b]) cid d = paidSlotsUnion db cid d := by
  unfold paidSlotsUnion
  rw [List.filter_append]
  have h : List.filter (fun b => b.paid && b.cardId == cid && b.date == d) [b] = [] := by
    simp [hb]
  rw [h, List.append_nil]

/-- Appending an unpaid booking does not change the displayed availability. -/
theorem unpaid_no_reduce (db : DB) (card : Card) (d : String) (b : Booking)
    (hb : b.paid = false) :
    availableTimes (db ++ [b]) card d = availableTimes db card d := by
  rw [availability_eq, availability_eq]
  unfold specAvailability
  rw [paidSlotsUnion_append_unpaid db card.id d b hb]

/-- C6: for every venue card and date, the computed availability equals the
hourly labels in [opening, closing) (wrapping past midnight when closing ≤
opening, as `generateTimeSlots` produces them) minus the union of the slot-sets
of all paid bookings for that card and date; and a booking with `paid = false`
never reduces availability. -/
theorem availability_correct :
    (∀ (db : DB) (card : Card) (d : String),
      availableTimes db card d = specAvailability db card d) ∧
    (∀ (db : DB) (card : Card) (d : String) (b : Booking), b.paid = false →
      availableTimes (db ++ [b]) card d = availableTimes db card d) :=
  ⟨availability_eq, unpaid_no_reduce⟩

/-- Witness for `availability_correct`: a venue open 9:00 AM–12:00 PM, one paid
booking of 10:00 AM and one unpaid booking of 11:00 AM; availability is the
9:00 AM and 11:00 AM labels, and the unpaid booking changed nothing. -/
theorem availability_correct_witness :
    availableTimes [availPaidBooking] availCard "2025-07-01" = ["9:00 AM", "11:00 AM"] ∧
    availableTimes ([availPaidBooking] ++ [availUnpaidBooking]) availCard "2025-07-01"
      = ["9:00 AM", "11:00 AM"] := by
  constructor
  · decide
  · rw [availability_correct.2 _ _ _ _ (by decide)]
    decide

/-- The conflict test of `handleConfirmBooking` matches the spec-side paid
collision predicate. -/
theorem anyPaid_iff_hasPaidCollision (db : DB) (cid d : String) (sel : List String) :
    (sel.any (fun slot => (checkAvailability db cid d).any
      (fun bs => bs.1 == slot && bs.2)) = true) ↔ hasPaidCollision db cid d sel := by
  rw [List.any_eq_true]
  simp only [hasPaidCollision]
  constructor
  · rintro ⟨s, hs, h⟩
    obtain ⟨b, hb, h1, h2, h3, h4⟩ := (checkAvailability_paid_mem db cid d s).mp h
    exact ⟨b, hb, h1, h2, h3, s, hs, h4⟩
  · rintro ⟨b, hb, h1, h2, h3, s, hs, h4⟩
    exact ⟨s, hs, (checkAvailability_paid_mem db cid d s).mpr ⟨b, hb, h1, h2, h3, h4⟩⟩

/-- C3 (amended): `handleConfirmBooking` re-reads availability immediately
before persisting — in a separate read step, not atomically with the write —
and, against that snapshot, fails without persisting exactly when a requested
slot lies in a paid booking for the card and date; otherwise it persists one
provisional booking holding the requested slots. -/
theorem handleConfirmBooking_recheck (db : DB) (uid : String) (card : Card)
    (dateString : String) (sel : List String) (newId : String) :
    ((handleConfirmBooking db uid card dateString sel newId).2 = .conflict ↔
      hasPaidCollision db card.id dateString sel) ∧
    (hasPaidCollision db card.id dateString sel →
      (handleConfirmBooking db uid card dateString sel newId).1 = db) ∧
    (¬ hasPaidCollision db card.id dateString sel →
      ∃ bk, (handleConfirmBooking db uid card dateString sel newId).1 = db ++ [bk] ∧
        bk.paid = false ∧ bk.cardId = card.id ∧ bk.date = dateString ∧ bk.id = newId ∧
        (∀ s, s ∈ bk.timeSlotsArray ↔ s ∈ sel) ∧
        (handleConfirmBooking db uid card dateString sel newId).2 = .booked newId) := by
  by_cases h : sel.any (fun slot => (checkAvailability db card.id dateString).any
      (fun bs => bs.1 == slot && bs.2)) = true
  · have hc := (anyPaid_iff_hasPaidCollision db card.id dateString sel).mp h
    refine ⟨⟨fun _ => hc, fun _ => ?_⟩, fun _ => ?_, fun hn => absurd hc hn⟩ <;>
      simp [handleConfirmBooking, h]
  · have hc := (anyPaid_iff_hasPaidCollision db card.id dateString sel).not.mp h
    refine ⟨⟨fun he => ?_, fun hcc => absurd hcc hc⟩, fun hcc => absurd hcc hc, fun _ => ?_⟩
    · exfalso
      revert he
      simp [handleConfirmBooking, h]
    · refine ⟨{ id := newId, userId := uid, cardId := card.id, date := dateString,
                timeSlot := joinSep "," (sortBy (fun a b => parseTimeToMinutes a < parseTimeToMinutes b) sel),
                timeSlotsArray := sortBy (fun a b => parseTimeToMinutes a < parseTimeToMinutes b) sel,
                totalAmount := (sel.length : ℚ) * card.pricePerHour,
                paid := false, paymentId := none, paymentMethod := none,
                paymentCapturedAt := none }, ?_, rfl, rfl, rfl, rfl, ?_, ?_⟩
      · simp [handleConfirmBooking, h]
      · intro s
        exact mem_sortBy _ s sel
      · simp [handleConfirmBooking, h]

/-- Witness for `handleConfirmBooking_recheck`: against a snapshot holding a
paid booking of 10:00 AM, reserving 10:00 AM conflicts and writes nothing. -/
theorem handleConfirmBooking_recheck_witness :
    (handleConfirmBooking [availPaidBooking] "u2" availCard "2025-07-01" ["10:00 AM"] "bkN").1
      = [availPaidBooking] ∧
    (handleConfirmBooking [availPaidBooking] "u2" availCard "2025-07-01" ["10:00 AM"] "bkN").2
      = .conflict := by
  constructor
  · exact (handleConfirmBooking_recheck [availPaidBooking] "u2" availCard "2025-07-01"
      ["10:00 AM"] "bkN").2.1 ⟨availPaidBooking, by decide, by decide, by decide, by decide,
        "10:00 AM", by decide, by decide⟩
  · exact (handleConfirmBooking_recheck [availPaidBooking] "u2" availCard "2025-07-01"
      ["10:00 AM"] "bkN").1.mpr ⟨availPaidBooking, by decide, by decide, by decide, by decide,
        "10:00 AM", by decide, by decide⟩

/-- C3 (counterexample): the conflict re-read and the persisting write are two
separate steps; in the interleaving `raceInit → c3Mid` the second reserve
session passed its re-read while `bkA` was unpaid, `bkA` was then settled paid,
and the session's write still persists `bkB` although at write time its slot
lies in the paid booking `bkA` — the re-check is not atomic with the write. -/
theorem reserveWrite_commits_despite_paid_conflict :
    Reach raceInit c3Mid ∧
    Step c3Mid ⟨c3Mid.db ++ [raceBookingB], []⟩ ∧
    conflictWithPaid c3Mid.db raceBookingB = true ∧
    raceBookingB ∉ c3Mid.db ∧
    raceBookingB ∈ c3Mid.db ++ [raceBookingB] := by
  refine ⟨?_, Step.write _ 0 ⟨raceBookingB, true⟩ rfl rfl, by decide, by decide, by decide⟩
  have h1 : Step raceInit ⟨[], [⟨raceBookingA, true⟩, ⟨raceBookingB, false⟩]⟩ :=
    Step.check raceInit 0 ⟨raceBookingA, false⟩ rfl rfl rfl
  have h2 : Step ⟨[], [⟨raceBookingA, true⟩, ⟨raceBookingB, false⟩]⟩
      ⟨[raceBookingA], [⟨raceBookingB, false⟩]⟩ :=
    Step.write _ 0 ⟨raceBookingA, true⟩ rfl rfl
  have h3 : Step ⟨[raceBookingA], [⟨raceBookingB, false⟩]⟩
      ⟨[raceBookingA], [⟨raceBookingB, true⟩]⟩ :=
    Step.check _ 0 ⟨raceBookingB, false⟩ rfl rfl rfl
  have h4 : Step ⟨[raceBookingA], [⟨raceBookingB, true⟩]⟩ c3Mid :=
    Step.settle _ "bkA" "pay_A" "upi" 1 raceBookingA rfl rfl
  exact .head h1 (.head h2 (.head h3 (.head h4 .refl)))

/-- C1: the no-double-sale invariant fails on the code.  From an empty bookings
collection, interleaving the two reserve sessions' separate check and write
steps with two webhook settlements reaches a state whose collection holds two
distinct paid bookings for the same card, date and slot; the final settlement
is exactly what `paymentWebhook` performs, answering 200 OK — no settlement
path checks other bookings' slots, and nothing produces a `SlotAlreadySold`
rejection. -/
theorem double_sale_reachable :
    raceInit.db = [] ∧
    Reach raceInit raceFinal ∧
    ¬ NoDoubleSale raceFinal.db ∧
    (paymentWebhook hmacDemo "whsec" jsonMinify 2 raceWebhookReqB
      [raceSettledA, raceBookingB]).1 = ⟨200, "OK"⟩ ∧
    (paymentWebhook hmacDemo "whsec" jsonMinify 2 raceWebhookReqB
      [raceSettledA, raceBookingB]).2 = raceFinal.db := by
  refine ⟨rfl, ?_, by decide, ?_, ?_⟩
  · have h1 : Step raceInit ⟨[], [⟨raceBookingA, true⟩, ⟨raceBookingB, false⟩]⟩ :=
      Step.check raceInit 0 ⟨raceBookingA, false⟩ rfl rfl rfl
    have h2 : Step ⟨[], [⟨raceBookingA, true⟩, ⟨raceBookingB, false⟩]⟩
        ⟨[], [⟨raceBookingA, true⟩, ⟨raceBookingB, true⟩]⟩ :=
      Step.check _ 1 ⟨raceBookingB, false⟩ rfl rfl rfl
    have h3 : Step ⟨[], [⟨raceBookingA, true⟩, ⟨raceBookingB, true⟩]⟩
        ⟨[raceBookingA], [⟨raceBookingB, true⟩]⟩ :=
      Step.write _ 0 ⟨raceBookingA, true⟩ rfl rfl
    have h4 : Step ⟨[raceBookingA], [⟨raceBookingB, true⟩]⟩
        ⟨[raceBookingA, raceBookingB], []⟩ :=
      Step.write _ 0 ⟨raceBookingB, true⟩ rfl rfl
    have h5 : Step ⟨[raceBookingA, raceBookingB], []⟩ ⟨[raceSettledA, raceBookingB], []⟩ :=
      Step.settle _ "bkA" "pay_A" "upi" 1 raceBookingA rfl rfl
    have h6 : Step ⟨[raceSettledA, raceBookingB], []⟩ raceFinal :=
      Step.settle _ "bkB" "pay_B" "upi" 2 raceBookingB rfl rfl
    exact .head h1 (.head h2 (.head h3 (.head h4 (.head h5 (.head h6 .refl)))))
  · set_option maxRecDepth 4000 in decide
  · set_option maxRecDepth 4000 in decide

/-- C7 (amended): in both selector variants a label not currently selected is
added only when the selection is empty or the label is adjacent (one hour
before the minimum or after the maximum); otherwise the selection is unchanged.
Removing a selected label differs: `handleTimeSlotToggle` (part_006) resets the
whole selection to empty when more than one label remains and the remainder is
no longer consecutive, while `handleSlotToggle` (part_007) merely filters the
label out, leaving any gap in place. -/
theorem slotSelector_contiguity :
    (∀ slots prev t, t ∉ prev → ¬ adjacentToSelection prev t → prev ≠ [] →
      handleTimeSlotToggle slots prev t = prev) ∧
    (∀ slots prev t, t ∈ prev →
      (((prev.filter (fun s => s ≠ t)).length > 1 ∧
          areSlotsConsecutive (prev.filter (fun s => s ≠ t)) = false) →
        handleTimeSlotToggle slots prev t = []) ∧
      (areSlotsConsecutive (prev.filter (fun s => s ≠ t)) = true →
        handleTimeSlotToggle slots prev t = prev.filter (fun s => s ≠ t))) ∧
    (∀ avail prev t, t ∉ prev → ¬ adjacentToSelection7 prev t → prev ≠ [] →
      handleSlotToggle avail prev t = prev) ∧
    (∀ avail prev t, t ∈ avail → t ∈ prev →
      handleSlotToggle avail prev t = prev.filter (fun s => s ≠ t)) := by
  refine ⟨?_, ?_, ?_, ?_⟩
  · intro slots prev t ht hadj hne
    have hc : (prev.contains t) = false := by
      rw [Bool.eq_false_iff]
      intro hcc
      exact ht ((contains_eq_true_iff prev t).mp hcc)
    unfold handleTimeSlotToggle
    rw [if_neg (by rw [hc]; exact Bool.false_ne_true)]
    split
    · rfl
    · split
      · rfl
      · split
        · rename_i h
          exact absurd h hadj
        · rfl
  · intro slots prev t ht
    have hc : (prev.contains t) = true := (contains_eq_true_iff prev t).mpr ht
    constructor
    · rintro ⟨h1, h2⟩
      unfold handleTimeSlotToggle
      rw [if_pos hc, if_pos ⟨h1, by rw [h2]; decide⟩]
    · intro h2
      unfold handleTimeSlotToggle
      rw [if_pos hc, if_neg (fun h => h.2 h2)]
  · intro avail prev t ht hadj hne
    unfold handleSlotToggle
    by_cases hav : avail.contains t = true
    · rw [if_neg (by rw [hav]; decide)]
      have hc : (prev.contains t) = false := by
        rw [Bool.eq_false_iff]
        intro hcc
        exact ht ((contains_eq_true_iff prev t).mp hcc)
      rw [if_neg (by rw [hc]; exact Bool.false_ne_true), if_neg hne]
      split
      · rename_i h
        exact absurd h hadj
      · rfl
    · rw [if_pos (by rw [Bool.eq_false_iff.mpr hav]; decide)]
  · intro avail prev t hav ht
    unfold handleSlotToggle
    rw [if_neg (by rw [(contains_eq_true_iff avail t).mpr hav]; decide)]
    rw [if_pos ((contains_eq_true_iff prev t).mpr ht)]

/-- Witness for `slotSelector_contiguity`: part_006 resets a 3-label selection
to empty on interior removal; part_007 ignores a non-adjacent addition. -/
theorem slotSelector_contiguity_witness :
    handleTimeSlotToggle [] ["9:00 AM", "10:00 AM", "11:00 AM"] "10:00 AM" = [] ∧
    handleSlotToggle ["08:00", "10:00"] ["08:00"] "10:00" = ["08:00"] := by
  constructor
  · exact (slotSelector_contiguity.2.1 [] ["9:00 AM", "10:00 AM", "11:00 AM"] "10:00 AM"
      (by decide)).1 ⟨by decide, by decide⟩
  · exact slotSelector_contiguity.2.2.1 ["08:00", "10:00"] ["08:00"] "10:00"
      (by decide) (by decide) (by decide)

/-- C7 (counterexample): removing the interior label `"10:00"` from the
contiguous selection 09:00–11:00 in part_007's `handleSlotToggle` leaves the
gapped selection `["09:00", "11:00"]` — the selection is not reset to empty. -/
theorem handleSlotToggle_gap :
    handleSlotToggle ["09:00", "10:00", "11:00"] ["09:00", "10:00", "11:00"] "10:00"
      = ["09:00", "11:00"] ∧
    (["09:00", "11:00"] : List String) ≠ [] ∧
    areSlotsConsecutive ["09:00", "11:00"] = false := by
  refine ⟨by decide, by decide, by decide⟩

/-- Lookup after a uniform id-preserving rewrite of the collection. -/
theorem findBooking_map (db : DB) (key : String) (g : Booking → Booking)
    (hg : ∀ b, (g b).id = b.id) :
    findBooking (db.map g) key = (findBooking db key).map g := by
  unfold findBooking
  have hpg : ((fun b : Booking => b.id == key) ∘ g) = (fun b : Booking => b.id == key) := by
    funext b
    simp [Function.comp, hg]
  rw [List.find?_map, hpg]

/-- Lookup after the webhook's settlement write. -/
theorem findBooking_settleWrite (db : DB) (b : Booking) (key pid m : String) (now : Nat)
    (hfound : findBooking db key = some b) :
    findBooking (settleWrite db key pid m now) key =
      some { b with paid := true, paymentId := some pid, paymentMethod := some m,
                    paymentCapturedAt := some now } := by
  unfold settleWrite
  rw [findBooking_map db key _ (fun b => by split <;> rfl)]
  rw [hfound]
  have hb : (b.id == key) = true := by
    have h2 := hfound
    unfold findBooking at h2
    simpa using List.find?_some h2
  rw [Option.map_some', if_pos hb]

/-- Lookup after the client-side paid write. -/
theorem findBooking_markPaidClient (db : DB) (b : Booking) (key pid m : String)
    (hfound : findBooking db key = some b) :
    findBooking (markPaidClient db key pid m) key =
      some { b with paid := true, paymentId := some pid, paymentMethod := some m } := by
  unfold markPaidClient
  rw [findBooking_map db key _ (fun b => by split <;> rfl)]
  rw [hfound]
  have hb : (b.id == key) = true := by
    have h2 := hfound
    unfold findBooking at h2
    simpa using List.find?_some h2
  rw [Option.map_some', if_pos hb]

/-- Repeating the client-side paid write with the same values is a no-op. -/
theorem markPaidClient_idem (db : DB) (key pid m : String) :
    markPaidClient (markPaidClient db key pid m) key pid m = markPaidClient db key pid m := by
  unfold markPaidClient
  rw [List.map_map]
  apply List.map_congr_left
  intro b _
  simp only [Function.comp]
  by_cases hb : (b.id == key) = true
  · simp [hb]
  · simp [hb]

/-- C2: settling the same delivery twice — in the TypeScript webhook and in the
compiled variant — flips the paid flag false→true exactly once: the first call
answers 200 and marks the booking paid, and the repeat call answers 200
(`"Already processed"` resp. `"Webhook processed"`) while leaving the
collection exactly as the first call left it. -/
theorem settlement_idempotent
    (hmac : String → String → String) (secret : String) (sp : String → String)
    (now1 now2 : Nat) (req : WebhookRequest) (db : DB) (b : Booking)
    (hsig : req.signature = some (hmac secret (sp req.rawBody)))
    (hev : req.event = "payment.captured")
    (hkey : effectiveBookingId req.payment = b.id)
    (hfound0 : findBooking db b.id = some b)
    (hunpaid : b.paid = false)
    (hid : b.id ≠ "") :
    ((paymentWebhook hmac secret sp now1 req db).1 = ⟨200, "OK"⟩ ∧
      (∃ b1, findBooking (paymentWebhook hmac secret sp now1 req db).2 b.id = some b1 ∧
        b1.paid = true) ∧
      paymentWebhook hmac secret sp now2 req (paymentWebhook hmac secret sp now1 req db).2
        = (⟨200, "Already processed"⟩, (paymentWebhook hmac secret sp now1 req db).2)) ∧
    ((paymentWebhookJS hmac secret sp req db).1 = ⟨200, "Webhook processed"⟩ ∧
      (∃ b1, findBooking (paymentWebhookJS hmac secret sp req db).2 b.id = some b1 ∧
        b1.paid = true) ∧
      paymentWebhookJS hmac secret sp req (paymentWebhookJS hmac secret sp req db).2
        = (⟨200, "Webhook processed"⟩, (paymentWebhookJS hmac secret sp req db).2)) := by
  have h1 : paymentWebhook hmac secret sp now1 req db =
      (⟨200, "OK"⟩, settleWrite db b.id req.payment.id req.payment.method now1) := by
    unfold paymentWebhook
    rw [if_neg (not_not_intro hsig), if_pos hev, hkey, if_neg hid, hfound0]
    simp [hunpaid]
  have hfound2 := findBooking_settleWrite db b b.id req.payment.id req.payment.method now1 hfound0
  have h2 : paymentWebhook hmac secret sp now2 req
      (settleWrite db b.id req.payment.id req.payment.method now1)
        = (⟨200, "Already processed"⟩,
            settleWrite db b.id req.payment.id req.payment.method now1) := by
    unfold paymentWebhook
    rw [if_neg (not_not_intro hsig), if_pos hev, hkey, if_neg hid, hfound2]
    simp
  have j1 : paymentWebhookJS hmac secret sp req db =
      (⟨200, "Webhook processed"⟩, markPaidClient db b.id req.payment.id req.payment.method) := by
    unfold paymentWebhookJS
    rw [if_pos hsig, if_pos hev, hkey, hfound0]
  have jfound2 := findBooking_markPaidClient db b b.id req.payment.id req.payment.method hfound0
  have j2 : paymentWebhookJS hmac secret sp req
      (markPaidClient db b.id req.payment.id req.payment.method)
        = (⟨200, "Webhook processed"⟩,
            markPaidClient db b.id req.payment.id req.payment.method) := by
    unfold paymentWebhookJS
    rw [if_pos hsig, if_pos hev, hkey, jfound2]
    simp [markPaidClient_idem]
  refine ⟨⟨?_, ?_, ?_⟩, ?_, ?_, ?_⟩
  · rw [h1]
  · rw [h1]
    exact ⟨_, hfound2, rfl⟩
  · rw [h1, h2]
  · rw [j1]
  · rw [j1]
    exact ⟨_, jfound2, rfl⟩
  · rw [j1, j2]

set_option maxRecDepth 6000 in
/-- Witness for `settlement_idempotent`: the concrete `bkB` delivery settled
twice against a one-booking collection. -/
theorem settlement_idempotent_witness :
    (paymentWebhook hmacDemo "whsec" jsonMinify 1 raceWebhookReqB [raceBookingB]).1
      = ⟨200, "OK"⟩ ∧
    paymentWebhook hmacDemo "whsec" jsonMinify 2 raceWebhookReqB
        (paymentWebhook hmacDemo "whsec" jsonMinify 1 raceWebhookReqB [raceBookingB]).2
      = (⟨200, "Already processed"⟩,
          (paymentWebhook hmacDemo "whsec" jsonMinify 1 raceWebhookReqB [raceBookingB]).2) := by
  have h := settlement_idempotent hmacDemo "whsec" jsonMinify 1 2 raceWebhookReqB
    [raceBookingB] raceBookingB (by decide) (by decide) (by decide) (by decide)
    (by decide) (by decide)
  exact ⟨h.1.1, h.1.2.2⟩

/-- C4 (amended): the webhook verifies the header against the HMAC of
`JSON.stringify(req.body)` — the re-serialisation of the parsed raw body — with
the webhook secret: any request whose header differs from that value is
answered 400 with the collection untouched, and only a request whose header
equals that value can change the collection. -/
theorem paymentWebhook_signature_gate (hmac : String → String → String)
    (secret : String) (sp : String → String) (now : Nat) (req : WebhookRequest) (db : DB) :
    (req.signature ≠ some (hmac secret (sp req.rawBody)) →
      paymentWebhook hmac secret sp now req db = (⟨400, "Invalid signature"⟩, db)) ∧
    ((paymentWebhook hmac secret sp now req db).2 ≠ db →
      req.signature = some (hmac secret (sp req.rawBody))) := by
  constructor
  · intro h
    unfold paymentWebhook
    rw [if_pos h]
  · intro hne
    by_cases h : req.signature = some (hmac secret (sp req.rawBody))
    · exact h
    · exfalso
      apply hne
      unfold paymentWebhook
      rw [if_pos h]

/-- Witness for `paymentWebhook_signature_gate`: a delivery with no signature
header is rejected 400 and writes nothing. -/
theorem paymentWebhook_signature_gate_witness :
    paymentWebhook hmacDemo "whsec" jsonMinify 2
        { raceWebhookReqB with signature := none } [raceBookingB]
      = (⟨400, "Invalid signature"⟩, [raceBookingB]) :=
  (paymentWebhook_signature_gate hmacDemo "whsec" jsonMinify 2
    { raceWebhookReqB with signature := none } [raceBookingB]).1
    (by set_option maxRecDepth 4000 in decide)

set_option maxRecDepth 8000 in
/-- C4 (counterexample): on a raw body containing inter-token whitespace the
JSON round trip is not the identity, so the value the handler checks differs
from the HMAC of the raw body: the delivery signed over the re-serialised body
settles the booking with status 200 although its header is not the HMAC of the
raw body, and the delivery signed over the true raw bytes is rejected 400. -/
theorem webhook_accepts_nonraw_signature :
    jsonMinify spacedRawBody ≠ spacedRawBody ∧
    spacedReq.signature ≠ some (hmacDemo "whsec" spacedRawBody) ∧
    (paymentWebhook hmacDemo "whsec" jsonMinify 5 spacedReq [raceBookingA]).1 = ⟨200, "OK"⟩ ∧
    (∃ b1, findBooking (paymentWebhook hmacDemo "whsec" jsonMinify 5 spacedReq [raceBookingA]).2
        "bkA" = some b1 ∧ b1.paid = true) ∧
    (paymentWebhook hmacDemo "whsec" jsonMinify 5
        { spacedReq with signature := some (hmacDemo "whsec" spacedRawBody) } [raceBookingA]).1
      = ⟨400, "Invalid signature"⟩ := by
  refine ⟨by decide, by decide, by decide,
    ⟨{ raceBookingA with
       paid := true
       paymentId := some "pay_1"
       paymentMethod := some "upi"
       paymentCapturedAt := some 5 }, by decide, by decide⟩, by decide⟩

/-- C9 (amended): when the payload's `notes.bookingId` is absent (or empty,
which JavaScript's `||` also treats as missing) the webhook keys the bookings
lookup by the payment's `order_id`; it answers 404 `"Booking not found"`
exactly when the selected key is non-empty and no document exists under that
single key — a document under the other key is never consulted. -/
theorem webhook_lookup_uses_selected_key (hmac : String → String → String)
    (secret : String) (sp : String → String) (now : Nat) (req : WebhookRequest) (db : DB)
    (hsig : req.signature = some (hmac secret (sp req.rawBody)))
    (hev : req.event = "payment.captured") :
    ((req.payment.notesBookingId = none ∨ req.payment.notesBookingId = some "") →
      effectiveBookingId req.payment = req.payment.orderId) ∧
    ((paymentWebhook hmac secret sp now req db).1 = ⟨404, "Booking not found"⟩ ↔
      (effectiveBookingId req.payment ≠ "" ∧
        findBooking db (effectiveBookingId req.payment) = none)) := by
  constructor
  · rintro (h | h) <;> simp [effectiveBookingId, h]
  · unfold paymentWebhook
    rw [if_neg (not_not_intro hsig), if_pos hev]
    by_cases hk : effectiveBookingId req.payment = ""
    · rw [if_pos hk]
      constructor
      · intro h
        simp at h
      · rintro ⟨hne, _⟩
        exact absurd hk hne
    · rw [if_neg hk]
      cases hfind : findBooking db (effectiveBookingId req.payment) with
      | none => simp [hk]
      | some bd =>
        by_cases hp : bd.paid = true <;> simp [hp, hfind]

set_option maxRecDepth 6000 in
/-- Witness for `webhook_lookup_uses_selected_key`: with `notes.bookingId`
absent the key falls back to `ord_9`, and the concrete delivery whose notes
name a missing document is answered 404. -/
theorem webhook_lookup_uses_selected_key_witness :
    effectiveBookingId { fallbackReq.payment with notesBookingId := none } = "ord_9" ∧
    (paymentWebhook hmacDemo "whsec" jsonMinify 3 fallbackReq orderKeyedDb).1
      = ⟨404, "Booking not found"⟩ := by
  constructor
  · exact (webhook_lookup_uses_selected_key hmacDemo "whsec" jsonMinify 3
      { fallbackReq with payment := { fallbackReq.payment with notesBookingId := none } }
      orderKeyedDb (by decide) (by decide)).1 (Or.inl rfl)
  · exact (webhook_lookup_uses_selected_key hmacDemo "whsec" jsonMinify 3
      fallbackReq orderKeyedDb (by decide) (by decide)).2.mpr ⟨by decide, by decide⟩

set_option maxRecDepth 6000 in
/-- C9 (counterexample): a well-signed capture delivery whose `notes.bookingId`
names a missing document is rejected 404 `"Booking not found"` even though a
document does exist under the payment's `order_id` key — the code tries only
the selected key, not both. -/
theorem webhook_404_despite_order_key_doc :
    fallbackReq.payment.notesBookingId = some "missing_bk" ∧
    (findBooking orderKeyedDb fallbackReq.payment.orderId).isSome = true ∧
    (paymentWebhook hmacDemo "whsec" jsonMinify 3 fallbackReq orderKeyedDb).1
      = ⟨404, "Booking not found"⟩ ∧
    (paymentWebhook hmacDemo "whsec" jsonMinify 3 fallbackReq orderKeyedDb).2 = orderKeyedDb := by
  refine ⟨by decide, by decide, by decide, by decide⟩

/-- Splitting at a separator character absent from both prefixes is injective. -/
theorem list_sep_inj (c : Char) : ∀ (l1 l2 r1 r2 : List Char), c ∉ l1 → c ∉ l2 →
    l1 ++ c :: r1 = l2 ++ c :: r2 → l1 = l2 ∧ r1 = r2 := by
  intro l1
  induction l1 with
  | nil =>
    intro l2 r1 r2 _ h2 h
    cases l2 with
    | nil => simpa using h
    | cons x xs =>
      simp only [List.nil_append, List.cons_append, List.cons.injEq] at h
      exact absurd (h.1 ▸ List.mem_cons_self x xs) h2
  | cons x xs ih =>
    intro l2 r1 r2 h1 h2 h
    cases l2 with
    | nil =>
      simp only [List.nil_append, List.cons_append, List.cons.injEq] at h
      exact absurd (h.1 ▸ List.mem_cons_self x xs) h1
    | cons y ys =>
      simp only [List.cons_append, List.cons.injEq] at h
      obtain ⟨rfl, htl⟩ := h
      have := ih ys r1 r2 (fun hm => h1 (List.mem_cons_of_mem _ hm))
        (fun hm => h2 (List.mem_cons_of_mem _ hm)) htl
      exact ⟨by rw [this.1], this.2⟩

/-- The `orderId|paymentId` message determines both components when neither
order id contains the pipe separator. -/
theorem string_sep_inj (o1 p1 o2 p2 : String) (h1 : '|' ∉ o1.data) (h2 : '|' ∉ o2.data)
    (h : o1 ++ "|" ++ p1 = o2 ++ "|" ++ p2) : o1 = o2 ∧ p1 = p2 := by
  have hd := congrArg String.data h
  simp only [String.data_append] at hd
  have hd2 : o1.data ++ '|' :: p1.data = o2.data ++ '|' :: p2.data := by
    simpa using hd
  obtain ⟨ha, hb⟩ := list_sep_inj '|' o1.data o2.data p1.data p2.data h1 h2 hd2
  exact ⟨String.ext ha, String.ext hb⟩

/-- The demo MAC is injective in the message for a fixed secret. -/
theorem hmacDemo_injective (s : String) : Function.Injective (hmacDemo s) := by
  intro a b h
  unfold hmacDemo at h
  have hd := congrArg String.data h
  simp only [String.data_append] at hd
  have h2 : s.data ++ ("#".data ++ a.data) = s.data ++ ("#".data ++ b.data) := by
    simpa [List.append_assoc] using hd
  have h3 := List.append_cancel_left h2
  have h4 := List.append_cancel_left h3
  exact String.ext h4

/-- C5: the redirect confirmation recomputes the HMAC over `orderId|paymentId`
with the shared per-payment secret and compares exactly: a mismatching
signature always fails without touching the collection; a signature computed
over a tampered order id or payment id is rejected whenever the MAC is
injective and the order ids are pipe-free; and on a match the processor is
queried, settlement happening exactly when the fetched status is `"captured"`.
The confirmation payload carries no amount — the signature binds only the two
ids, so no amount-bearing payload claim is consulted at all. -/
theorem redirect_signature_verification
    (hmac : String → String → String) (keySecret uid : String) (db : DB)
    (bookingId pid oid sig : String) (fetchStatus : String → Option String) :
    (sig ≠ hmac keySecret (oid ++ "|" ++ pid) →
      handlePaymentCard hmac keySecret (some uid) db bookingId pid oid sig fetchStatus
        = (db, false)) ∧
    (∀ oid2 pid2, Function.Injective (hmac keySecret) → '|' ∉ oid.data → '|' ∉ oid2.data →
      (oid2 ≠ oid ∨ pid2 ≠ pid) → sig = hmac keySecret (oid2 ++ "|" ++ pid2) →
      handlePaymentCard hmac keySecret (some uid) db bookingId pid oid sig fetchStatus
        = (db, false)) ∧
    (sig = hmac keySecret (oid ++ "|" ++ pid) → pid ≠ "" → oid ≠ "" → sig ≠ "" →
      (fetchStatus pid = some "captured" →
        handlePaymentCard hmac keySecret (some uid) db bookingId pid oid sig fetchStatus
          = (markPaidClient db bookingId pid "card", true)) ∧
      (fetchStatus pid ≠ some "captured" →
        handlePaymentCard hmac keySecret (some uid) db bookingId pid oid sig fetchStatus
          = (db, false))) := by
  have hmain : ∀ _ : sig ≠ hmac keySecret (oid ++ "|" ++ pid),
      handlePaymentCard hmac keySecret (some uid) db bookingId pid oid sig fetchStatus
        = (db, false) := by
    intro h
    unfold handlePaymentCard verifyPayment
    simp only []
    rw [if_neg (by simp)]
    by_cases hemp : pid = "" ∨ oid = "" ∨ sig = ""
    · rw [if_pos hemp]
    · rw [if_neg hemp, if_pos (Ne.symm h)]
      rfl
  refine ⟨hmain, ?_, ?_⟩
  · intro oid2 pid2 hinj ho ho2 hne hsig
    apply hmain
    intro hcontra
    have heq : oid2 ++ "|" ++ pid2 = oid ++ "|" ++ pid := hinj (hsig ▸ hcontra)
    obtain ⟨hoo, hpp⟩ := string_sep_inj oid2 pid2 oid pid ho2 ho heq
    rcases hne with hne | hne
    · exact hne hoo
    · exact hne hpp
  · intro hsig hp ho hs
    have hne : ¬(pid = "" ∨ oid = "" ∨ sig = "") := by
      rintro (h | h | h)
      exacts [hp h, ho h, hs h]
    constructor
    · intro hcap
      unfold handlePaymentCard verifyPayment
      simp only []
      rw [if_neg (by simp), if_neg hne, if_neg (not_not_intro hsig.symm), hcap]
      simp
    · intro hncap
      unfold handlePaymentCard verifyPayment
      simp only []
      rw [if_neg (by simp), if_neg hne, if_neg (not_not_intro hsig.symm)]
      cases hfs : fetchStatus pid with
      | none => rfl
      | some st =>
        have hst : st ≠ "captured" := fun h => hncap (h ▸ hfs)
        simp [hst]

/-- Witness for `redirect_signature_verification`: a signature computed over
the tampered order id `ord2` is rejected with no write, and the correctly
computed signature settles the booking. -/
theorem redirect_signature_verification_witness :
    handlePaymentCard hmacDemo "keysec" (some "u1") [raceBookingA] "bkA" "pay1" "ord1"
        (hmacDemo "keysec" ("ord2" ++ "|" ++ "pay1")) (fun _ => some "captured")
      = ([raceBookingA], false) ∧
    handlePaymentCard hmacDemo "keysec" (some "u1") [raceBookingA] "bkA" "pay1" "ord1"
        (hmacDemo "keysec" ("ord1" ++ "|" ++ "pay1")) (fun _ => some "captured")
      = (markPaidClient [raceBookingA] "bkA" "pay1" "card", true) := by
  constructor
  · exact (redirect_signature_verification hmacDemo "keysec" "u1" [raceBookingA] "bkA"
      "pay1" "ord1" (hmacDemo "keysec" ("ord2" ++ "|" ++ "pay1")) (fun _ => some "captured")).2.1
      "ord2" "pay1" (hmacDemo_injective "keysec") (by decide) (by decide)
      (Or.inl (by decide)) rfl
  · exact ((redirect_signature_verification hmacDemo "keysec" "u1" [raceBookingA] "bkA"
      "pay1" "ord1" (hmacDemo "keysec" ("ord1" ++ "|" ++ "pay1")) (fun _ => some "captured")).2.2
      rfl (by decide) (by decide) (by decide)).1 rfl

/-- A settled poll run: the settling attempt is the first successful one, it
lies within one budget-window of the start, and every earlier attempt failed. -/
theorem pollFrom_settled_spec (v : Nat → Bool) :
    ∀ n a k, maxAttempts - a = n → pollFrom v a = .settled k →
      v k = true ∧ a < k ∧ k ≤ max (a + 1) maxAttempts ∧ ∀ j, a < j → j < k → v j = false := by
  intro n
  induction n using Nat.strong_induction_on with
  | _ n ih =>
    intro a k hn hp
    rw [pollFrom] at hp
    by_cases hv : v (a + 1) = true
    · rw [if_pos hv] at hp
      have hk : a + 1 = k := by
        injection hp
      subst hk
      exact ⟨hv, Nat.lt_succ_self a, le_max_left _ _, fun j hj1 hj2 => absurd hj2 (by omega)⟩
    · rw [if_neg hv] at hp
      by_cases hm : maxAttempts ≤ a + 1
      · rw [if_pos hm] at hp
        exact absurd hp (by simp)
      · rw [if_neg hm] at hp
        have hlt : a + 1 < maxAttempts := by omega
        have hrec := ih (maxAttempts - (a + 1)) (by omega) (a + 1) k rfl hp
        refine ⟨hrec.1, by omega, ?_, ?_⟩
        · have h1 := hrec.2.2.1
          rw [Nat.max_eq_right (by omega)] at h1
          rw [Nat.max_eq_right (by omega)]
          exact h1
        · intro j hj1 hj2
          by_cases hj : j = a + 1
          · subst hj
            exact Bool.eq_false_iff.mpr hv
          · exact hrec.2.2.2 j (by omega) hj2

/-- A poll run times out exactly when every attempt within the budget fails. -/
theorem pollFrom_timeout_spec (v : Nat → Bool) :
    ∀ n a, maxAttempts - a = n → a < maxAttempts →
      (pollFrom v a = .timeout ↔ ∀ k, a < k → k ≤ maxAttempts → v k = false) := by
  intro n
  induction n using Nat.strong_induction_on with
  | _ n ih =>
    intro a hn ha
    rw [pollFrom]
    by_cases hv : v (a + 1) = true
    · rw [if_pos hv]
      constructor
      · intro h
        exact absurd h (by simp)
      · intro h
        have := h (a + 1) (by omega) (by omega)
        rw [hv] at this
        exact absurd this (by simp)
    · rw [if_neg hv]
      by_cases hm : maxAttempts ≤ a + 1
      · rw [if_pos hm]
        constructor
        · intro _ k hk1 hk2
          have hk : k = a + 1 := by omega
          subst hk
          exact Bool.eq_false_iff.mpr hv
        · intro _
          rfl
      · rw [if_neg hm]
        rw [ih (maxAttempts - (a + 1)) (by omega) (a + 1) rfl (by omega)]
        constructor
        · intro h k hk1 hk2
          by_cases hk : k = a + 1
          · subst hk
            exact Bool.eq_false_iff.mpr hv
          · exact h k (by omega) hk2
        · intro h k hk1 hk2
          exact h k (by omega) hk2

/-- C8: the UPI polling loop runs on a fixed 10-second interval for at most 30
attempts; the first observed success (and only it) settles — the run writes the
paid flag through `markPaidClient` — and if every attempt within the budget
fails the run ends in `Timeout` with the collection exactly as it started. -/
theorem polling_bounded_no_side_effects (verify : Nat → Bool)
    (paymentIdAt : Nat → Option String) (db : DB) (bookingId orderId method : String) :
    pollIntervalMs = 10000 ∧
    maxAttempts = 30 ∧
    (∀ k, pollFrom verify 0 = .settled k →
      1 ≤ k ∧ k ≤ maxAttempts ∧ verify k = true ∧
        (∀ j, 1 ≤ j → j < k → verify j = false) ∧
        ∃ pid, pollRun verify paymentIdAt db bookingId orderId method
          = (.settled k, markPaidClient db bookingId pid method)) ∧
    ((pollFrom verify 0 = .timeout) ↔ (∀ k, 1 ≤ k → k ≤ maxAttempts → verify k = false)) ∧
    (pollFrom verify 0 = .timeout →
      pollRun verify paymentIdAt db bookingId orderId method = (.timeout, db)) := by
  have hto := pollFrom_timeout_spec verify (maxAttempts - 0) 0 rfl (by simp [maxAttempts])
  refine ⟨rfl, rfl, ?_, ?_, ?_⟩
  · intro k hk
    have hs := pollFrom_settled_spec verify (maxAttempts - 0) 0 k rfl hk
    refine ⟨hs.2.1, ?_, hs.1, fun j hj1 hj2 => hs.2.2.2 j hj1 hj2, ?_⟩
    · have h1 := hs.2.2.1
      rw [Nat.max_eq_right (by simp [maxAttempts])] at h1
      exact h1
    · unfold pollRun
      rw [hk]
      exact ⟨_, rfl⟩
  · exact hto
  · intro h
    unfold pollRun
    rw [h]

/-- Witness for `polling_bounded_no_side_effects`: a run whose third status
check succeeds settles at attempt 3, and a run with no success ever times out
after the budget with the collection untouched. -/
theorem polling_bounded_no_side_effects_witness :
    pollRun (fun k => decide (k = 3)) (fun _ => some "p3") [raceBookingA] "bkA" "ordA" "upiQR"
      = (.settled 3, markPaidClient [raceBookingA] "bkA" "p3" "upiQR") ∧
    pollRun (fun _ => false) (fun _ => none) [raceBookingA] "bkA" "ordA" "upiQR"
      = (.timeout, [raceBookingA]) := by
  constructor
  · have hs : pollFrom (fun k => decide (k = 3)) 0 = .settled 3 := by
      rw [pollFrom]
      norm_num
      rw [pollFrom]
      norm_num
      rw [pollFrom]
      norm_num [maxAttempts]
    have hk := ((polling_bounded_no_side_effects (fun k => decide (k = 3))
      (fun _ => some "p3") [raceBookingA] "bkA" "ordA" "upiQR").2.2.1 3 hs).2.1
    unfold pollRun
    rw [hs]
    decide
  · exact (polling_bounded_no_side_effects (fun _ => false)
      (fun _ => none) [raceBookingA] "bkA" "ordA" "upiQR").2.2.2.2
      ((polling_bounded_no_side_effects (fun _ => false)
        (fun _ => none) [raceBookingA] "bkA" "ordA" "upiQR").2.2.2.1.mpr
        (fun _ _ _ => rfl))

/-- C10: an authenticated call with a positive numeric amount and a non-empty
booking id always yields a processor order over `Math.round(amount × 100)`
minor units in INR, with the booking id as receipt and notes metadata —
computed identically for every state of the bookings collection, which the
function never reads. -/
theorem createPaymentOrder_trusts_caller (uid bid : String) (a : ℚ) (db db2 : DB)
    (ha : 0 < a) (hbid : bid ≠ "") :
    createPaymentOrder (some uid) (some a) (some bid) db
      = .ok { amount := jsRound (a * 100), currency := "INR", receipt := bid,
              notesBookingId := some bid } ∧
    createPaymentOrder (some uid) (some a) (some bid) db
      = createPaymentOrder (some uid) (some a) (some bid) db2 := by
  have h : ∀ dbx : DB, createPaymentOrder (some uid) (some a) (some bid) dbx
      = .ok { amount := jsRound (a * 100), currency := "INR", receipt := bid,
              notesBookingId := some bid } := by
    intro dbx
    have hcond : ¬(a = 0 ∨ bid = "" ∨ a ≤ 0) := by
      rintro (h | h | h)
      · exact absurd h ha.ne'
      · exact hbid h
      · exact absurd ha (not_lt.mpr h)
    simp [createPaymentOrder, hcond]
  exact ⟨h db, (h db).trans (h db2).symm⟩

/-- Witness for `createPaymentOrder_trusts_caller`: an order over 499.5 rupees
for a booking id that exists nowhere, against a collection whose only booking
has a different total amount; 49950 paise are requested regardless. -/
theorem createPaymentOrder_trusts_caller_witness :
    createPaymentOrder (some "u1") (some (999 / 2 : ℚ)) (some "ghost") [raceBookingA]
      = .ok { amount := 49950, currency := "INR", receipt := "ghost",
              notesBookingId := some "ghost" } ∧
    findBooking [raceBookingA] "ghost" = none ∧
    (999 / 2 : ℚ) ≠ raceBookingA.totalAmount := by
  refine ⟨?_, by decide, by norm_num [raceBookingA]⟩
  have h := (createPaymentOrder_trusts_caller "u1" "ghost" (999 / 2) [raceBookingA] []
    (by norm_num) (by decide)).1
  rw [h]
  have hr : jsRound ((999 / 2 : ℚ) * 100) = 49950 := by
    simp only [jsRound]
    norm_num
  rw [hr]

end Turfion
